import Mathlib

/-!
Verification of the NearNodeFlash fence-agents repository: a shallow
embedding in Lean 4 of the requester (`fence_gfs2_recorder.py`), the
watchers (`external_fence_watcher*.py`) and the discovery tiers, together
with theorems settling the specification's claims about them.

Modelling conventions:
* Wall-clock time is measured in deciseconds (0.1 s ticks), so the
  requester's poll interval of 0.5 s is 5 ticks and the watchers' file-size
  sampling interval of 0.1 s is 1 tick.
* The filesystem and subprocesses are passed in explicitly as environment
  functions (what the response directory holds at each poll, what each
  `subprocess.run` call produced, whether a file write raised).
* Python loops bounded by a wall-clock timeout are translated with a fuel
  argument that provably exceeds the number of iterations the timeout
  allows, so the fuel-exhaustion branch coincides with the loop's own
  timeout exit.
-/

/-- Payload of a fence response JSON file as the requester reads it:
`response_data.get("success", False)` etc., so every field is optional
(`fence_gfs2_recorder.py` lines 190-192). -/
structure ResponsePayload where
  success? : Option Bool
  message? : Option String
  actionPerformed? : Option String
deriving DecidableEq

/-- The `(success, message, actual_action)` triple returned by
`wait_for_fence_response` (`fence_gfs2_recorder.py` line 196). -/
structure FenceOutcome where
  success : Bool
  message : String
  action : String
deriving DecidableEq

/-- Outcome built from a parsed response file, with the defaults of
`fence_gfs2_recorder.py` lines 190-192. -/
def responseOutcome (p : ResponsePayload) : FenceOutcome :=
  { success := p.success?.getD false
    message := p.message?.getD "Fence operation completed"
    action := p.actionPerformed?.getD "unknown" }

/-- Outcome when reading the response file raised
(`fence_gfs2_recorder.py` lines 198-200); the Python message interpolates
the exception text, which the model elides. -/
def parseErrOutcome : FenceOutcome :=
  { success := false, message := "Failed to parse response", action := "error" }

/-- Outcome of the timeout exit (`fence_gfs2_recorder.py` lines 204-206);
the numeric timeout is interpolated in deciseconds here. -/
def timeoutOutcome (timeoutDs : Nat) : FenceOutcome :=
  { success := false
    message := "Fence operation timed out after " ++ toString timeoutDs ++ "ds"
    action := "timeout" }

/-- State of the response directory at the requester's `k`-th poll:
`none` means the response file does not exist, `some none` means it exists
but `json.load` raises, `some (some p)` means it parses to `p`. -/
abbrev RespEnv := Nat → Option (Option ResponsePayload)

/-- The polling loop of `wait_for_fence_response`
(`fence_gfs2_recorder.py` lines 178-206).  The `k`-th iteration runs at
elapsed time `5 * k` deciseconds (poll_interval = 0.5 s); the loop guard is
`time.time() - start_time < timeout`.  Returns the outcome together with
the total elapsed time in deciseconds.  Fuel exhaustion returns the same
value as the loop's own timeout exit, and `wait_for_fence_response`
supplies enough fuel that it is never reached. -/
def waitIter (env : RespEnv) (timeoutDs : Nat) : Nat → Nat → FenceOutcome × Nat
  | 0, k => (timeoutOutcome timeoutDs, 5 * k)
  | fuel + 1, k =>
    if 5 * k < timeoutDs then
      match env k with
      | some (some p) => (responseOutcome p, 5 * k)
      | some none => (parseErrOutcome, 5 * k)
      | none => waitIter env timeoutDs fuel (k + 1)
    else (timeoutOutcome timeoutDs, 5 * k)

/-- `wait_for_fence_response(request_id, timeout)`
(`fence_gfs2_recorder.py` lines 166-206), abstracted over the response
directory contents; `timeoutDs` is the timeout in deciseconds. -/
def wait_for_fence_response (env : RespEnv) (timeoutDs : Nat) : FenceOutcome × Nat :=
  waitIter env timeoutDs timeoutDs 0

/-- The filename under which the requester looks for its response:
`os.path.join(RESPONSE_DIR, f"<request_id>.json")`
(`fence_gfs2_recorder.py` line 172), relative to the response directory. -/
def requesterResponseFilename (request_id : String) : String :=
  request_id ++ ".json"

/-- Number of poll iterations the loop runs before the timeout exit:
`⌈timeoutDs / 5⌉`. -/
def pollCount (timeoutDs : Nat) : Nat := (timeoutDs + 4) / 5

theorem waitIter_none_eq (env : RespEnv) (henv : ∀ j, env j = none) (timeoutDs : Nat) :
    ∀ fuel k, k ≤ pollCount timeoutDs → pollCount timeoutDs ≤ k + fuel →
      waitIter env timeoutDs fuel k = (timeoutOutcome timeoutDs, 5 * pollCount timeoutDs) := by
  intro fuel
  induction fuel with
  | zero =>
    intro k hk hk'
    have : k = pollCount timeoutDs := le_antisymm hk (by omega)
    simp [waitIter, this]
  | succ n ih =>
    intro k hk hk'
    rcases Nat.lt_or_ge k (pollCount timeoutDs) with h | h
    · have hcond : 5 * k < timeoutDs := by
        unfold pollCount at h
        omega
      rw [waitIter, if_pos hcond, henv k]
      exact ih (k + 1) h (by omega)
    · have hke : k = pollCount timeoutDs := le_antisymm hk h
      have hcond : ¬ 5 * k < timeoutDs := by
        unfold pollCount at hke
        omega
      rw [waitIter, if_neg hcond, hke]

theorem wait_none_eq (env : RespEnv) (henv : ∀ j, env j = none) (timeoutDs : Nat) :
    wait_for_fence_response env timeoutDs =
      (timeoutOutcome timeoutDs, 5 * pollCount timeoutDs) := by
  apply waitIter_none_eq env henv
  · unfold pollCount; omega
  · unfold pollCount; omega

/-- C2: when no response file ever appears, `wait_for_fence_response`
terminates with the synthetic timeout outcome: its status string is
`"timeout"` (not `"failed"`), its message contains `"timed out"`, the
total wait `5 * ⌈timeout / poll_interval⌉` lies between `timeout` and
`timeout + poll_interval`, and the loop runs exactly
`⌈timeout / poll_interval⌉` iterations (poll_interval = 0.5 s = 5 ds). -/
theorem wait_for_fence_response_timeout (env : RespEnv) (timeoutDs : Nat)
    (henv : ∀ j, env j = none) :
    wait_for_fence_response env timeoutDs =
        (timeoutOutcome timeoutDs, 5 * pollCount timeoutDs) ∧
      (timeoutOutcome timeoutDs).action = "timeout" ∧
      (timeoutOutcome timeoutDs).action ≠ "failed" ∧
      (timeoutOutcome timeoutDs).success = false ∧
      (∃ a b, (timeoutOutcome timeoutDs).message = a ++ "timed out" ++ b) ∧
      timeoutDs ≤ 5 * pollCount timeoutDs ∧
      5 * pollCount timeoutDs ≤ timeoutDs + 5 := by
  refine ⟨wait_none_eq env henv timeoutDs, rfl, ?_, rfl, ?_, ?_, ?_⟩
  · show ("timeout" : String) ≠ "failed"
    decide
  · refine ⟨"Fence operation ", " after " ++ toString timeoutDs ++ "ds", ?_⟩
    show "Fence operation timed out after " ++ toString timeoutDs ++ "ds" = _
    have h : "Fence operation timed out after " =
        "Fence operation " ++ "timed out" ++ " after " := by decide
    rw [h]
    simp only [String.append_assoc]
  · unfold pollCount; omega
  · unfold pollCount; omega

/-- Witness for C2 at `timeout = 60 s = 600 ds`: the wait is exactly
600 ds (= `timeout`) and the outcome is the timeout sentinel. -/
theorem wait_for_fence_response_timeout_witness :
    wait_for_fence_response (fun _ => none) 600 = (timeoutOutcome 600, 600) ∧
      (timeoutOutcome 600).action = "timeout" := by
  have h := wait_for_fence_response_timeout (fun _ => none) 600 (fun _ => rfl)
  exact ⟨by rw [h.1]; decide, h.2.1⟩

/-- Outcome the poll loop produces on first observing the response file in
state `r` (parsed payload or parse failure). -/
def hitOutcome : Option ResponsePayload → FenceOutcome
  | some p => responseOutcome p
  | none => parseErrOutcome

theorem waitIter_first_hit (env : RespEnv) (timeoutDs : Nat) (k : Nat) (r : Option ResponsePayload)
    (hk : 5 * k < timeoutDs) (hbefore : ∀ j, j < k → env j = none) (hit : env k = some r) :
    ∀ fuel i, fuel = timeoutDs - i → i ≤ k →
      (∀ j, i ≤ j → j < k → env j = none) →
      waitIter env timeoutDs fuel i = (hitOutcome r, 5 * k) := by
  intro fuel
  induction fuel with
  | zero =>
    intro i hfi hik _
    omega
  | succ n ih =>
    intro i hfi hik hskip
    rcases Nat.lt_or_ge i k with h | h
    · have hcond : 5 * i < timeoutDs := by omega
      rw [waitIter, if_pos hcond, hskip i le_rfl h]
      exact ih (i + 1) (by omega) h (fun j hj hj' => hskip j (by omega) hj')
    · have hik' : i = k := le_antisymm hik h
      subst hik'
      rw [waitIter, if_pos hk, hit]
      cases r <;> rfl

theorem wait_first_hit (env : RespEnv) (timeoutDs : Nat) (k : Nat) (r : Option ResponsePayload)
    (hk : 5 * k < timeoutDs) (hbefore : ∀ j, j < k → env j = none) (hit : env k = some r) :
    wait_for_fence_response env timeoutDs = (hitOutcome r, 5 * k) := by
  exact waitIter_first_hit env timeoutDs k r hk hbefore hit timeoutDs 0 (by omega) (by omega)
    (fun j _ hj => hbefore j hj)

/-! ## The requester's main flow (`fence_gfs2_recorder.py` `main`, lines 538-596)

For an action other than `monitor`, `main` records a "requested" audit
event, writes the fence request (`write_fence_request` returns `None` on
failure), and then either exits 1 after a "failed" event (request not
written), or waits for the response and exits 0 after a "completed" event
exactly when the response outcome's `success` is true, else exits 1 after
a "failed" event. -/

/-- Environment for the two audit sinks of `record_fence_event`
(`fence_gfs2_recorder.py` lines 117-133): whether appending to the JSON
Lines file and to the human-readable log raises. -/
structure AuditEnv where
  jsonlFails : Bool
  readableFails : Bool
deriving DecidableEq

/-- One audit file append, which either succeeds or raises
(`open(...,'a'); f.write(...)`). -/
def appendLine (fails : Bool) (_line : String) : Except String Unit :=
  if fails then Except.error "write failed" else Except.ok ()

/-- `record_fence_event` (`fence_gfs2_recorder.py` lines 98-135): each of
the two appends is wrapped in its own `try/except` which only logs, so the
function is total; it returns the list of lines actually written (here
represented by the event's status string, once per sink that succeeded). -/
def record_fence_event (aenv : AuditEnv) (status : String) : List String :=
  (match appendLine aenv.jsonlFails status with
    | Except.ok _ => [status]
    | Except.error _ => []) ++
  (match appendLine aenv.readableFails status with
    | Except.ok _ => [status]
    | Except.error _ => [])

/-- Result of one requester invocation: exit code, the statuses of the
audit events it recorded in order, and the audit lines that actually
reached the log files given the audit environment. -/
structure MainResult where
  exitCode : Nat
  auditStatuses : List String
  written : List String
deriving DecidableEq

/-- The non-monitor tail of `main` (`fence_gfs2_recorder.py` lines
543-596): record "requested", then branch on whether the request file was
written (`writeRes`), then on the awaited response outcome's `success`. -/
def main_fence (aenv : AuditEnv) (writeRes : Option String) (renv : RespEnv)
    (timeoutDs : Nat) : MainResult :=
  let w1 := record_fence_event aenv "requested"
  match writeRes with
  | none =>
    { exitCode := 1
      auditStatuses := ["requested", "failed"]
      written := w1 ++ record_fence_event aenv "failed" }
  | some _ =>
    if (wait_for_fence_response renv timeoutDs).1.success then
      { exitCode := 0
        auditStatuses := ["requested", "completed"]
        written := w1 ++ record_fence_event aenv "completed" }
    else
      { exitCode := 1
        auditStatuses := ["requested", "failed"]
        written := w1 ++ record_fence_event aenv "failed" }

/-- C1: for a non-monitor invocation, the requester exits 0 with a final
audit event of status "completed" exactly when the request was written and
the awaited response outcome reports success; in every other case
(request-write failure, actuator-reported failure, malformed response,
timeout — all of which make the outcome's `success` false) it exits 1 with
a final audit event of status "failed".  Moreover a response payload with
`success = true` that is present (and first observed) at poll `k` within
the timeout yields exactly that success outcome. -/
theorem main_fence_exit_contract (aenv : AuditEnv) (writeRes : Option String)
    (renv : RespEnv) (timeoutDs : Nat) :
    ((main_fence aenv writeRes renv timeoutDs).exitCode = 0 ∨
        (main_fence aenv writeRes renv timeoutDs).exitCode = 1) ∧
      ((main_fence aenv writeRes renv timeoutDs).exitCode = 0 ↔
        writeRes.isSome ∧ (wait_for_fence_response renv timeoutDs).1.success = true) ∧
      ((main_fence aenv writeRes renv timeoutDs).exitCode = 0 ↔
        (main_fence aenv writeRes renv timeoutDs).auditStatuses.getLast? = some "completed") ∧
      ((main_fence aenv writeRes renv timeoutDs).exitCode = 1 ↔
        (main_fence aenv writeRes renv timeoutDs).auditStatuses.getLast? = some "failed") ∧
      (∀ k p, 5 * k < timeoutDs → (∀ j, j < k → renv j = none) →
        renv k = some (some p) → p.success? = some true →
        (main_fence aenv writeRes renv timeoutDs).exitCode =
          if writeRes.isSome then 0 else 1) := by
  refine ⟨?_, ?_, ?_, ?_, ?_⟩
  · cases writeRes with
    | none => simp [main_fence]
    | some _ =>
      by_cases h : (wait_for_fence_response renv timeoutDs).1.success <;>
        simp [main_fence, h]
  · cases writeRes with
    | none => simp [main_fence]
    | some _ =>
      by_cases h : (wait_for_fence_response renv timeoutDs).1.success <;>
        simp [main_fence, h]
  · cases writeRes with
    | none => simp [main_fence]
    | some _ =>
      by_cases h : (wait_for_fence_response renv timeoutDs).1.success <;>
        simp [main_fence, h]
  · cases writeRes with
    | none => simp [main_fence]
    | some _ =>
      by_cases h : (wait_for_fence_response renv timeoutDs).1.success <;>
        simp [main_fence, h]
  · intro k p hk hbefore hit hsucc
    have hw := wait_first_hit renv timeoutDs k (some p) hk hbefore hit
    have hsuc : (wait_for_fence_response renv timeoutDs).1.success = true := by
      rw [hw]
      simp [hitOutcome, responseOutcome, hsucc]
    cases writeRes with
    | none => simp [main_fence]
    | some _ => simp [main_fence, hsuc]

/-- Witness for C1, the spec's success scenario: the watcher's response
(success = true) is present at the first poll, the request was written, so
the requester exits 0; and with no request written it exits 1. -/
theorem main_fence_exit_contract_witness :
    (main_fence ⟨false, false⟩ (some "id-1")
        (fun _ => some (some ⟨some true, some "ok", some "reboot"⟩)) 600).exitCode = 0 ∧
      (main_fence ⟨false, false⟩ none
        (fun _ => some (some ⟨some true, some "ok", some "reboot"⟩)) 600).exitCode = 1 := by
  constructor
  · have h := (main_fence_exit_contract ⟨false, false⟩ (some "id-1")
      (fun _ => some (some ⟨some true, some "ok", some "reboot"⟩)) 600).2.2.2.2
      0 ⟨some true, some "ok", some "reboot"⟩ (by omega) (fun j hj => by omega) rfl rfl
    simpa using h
  · have h := (main_fence_exit_contract ⟨false, false⟩ none
      (fun _ => some (some ⟨some true, some "ok", some "reboot"⟩)) 600).2.2.2.2
      0 ⟨some true, some "ok", some "reboot"⟩ (by omega) (fun j hj => by omega) rfl rfl
    simpa using h

/-- C10: audit-log writability never influences the requester's outcome.
`record_fence_event` absorbs failures of either append (each is inside its
own `try/except`), so it is total: with both sinks failing it writes
nothing yet returns, with both healthy it writes one line per sink.  The
exit code and the sequence of audit statuses of `main_fence` are identical
under any two audit environments — they depend only on whether the request
was written and on the awaited response outcome.  Finally, a response
payload with no `success` field yields `success = false`
(`response_data.get("success", False)`), so such a response makes the
requester fail. -/
theorem main_fence_audit_independent (aenv aenv' : AuditEnv) (writeRes : Option String)
    (renv : RespEnv) (timeoutDs : Nat) :
    ((main_fence aenv writeRes renv timeoutDs).exitCode =
        (main_fence aenv' writeRes renv timeoutDs).exitCode) ∧
      ((main_fence aenv writeRes renv timeoutDs).auditStatuses =
        (main_fence aenv' writeRes renv timeoutDs).auditStatuses) ∧
      (∀ status, record_fence_event ⟨true, true⟩ status = []) ∧
      (∀ status, record_fence_event ⟨false, false⟩ status = [status, status]) ∧
      (∀ p, p.success? = none → (responseOutcome p).success = false) ∧
      (∀ k p, 5 * k < timeoutDs → (∀ j, j < k → renv j = none) →
        renv k = some (some p) → p.success? = none →
        (wait_for_fence_response renv timeoutDs).1.success = false) := by
  refine ⟨?_, ?_, fun _ => rfl, fun _ => rfl, ?_, ?_⟩
  · cases writeRes with
    | none => rfl
    | some _ =>
      by_cases h : (wait_for_fence_response renv timeoutDs).1.success <;>
        simp [main_fence, h]
  · cases writeRes with
    | none => rfl
    | some _ =>
      by_cases h : (wait_for_fence_response renv timeoutDs).1.success <;>
        simp [main_fence, h]
  · intro p hp
    simp [responseOutcome, hp]
  · intro k p hk hbefore hit hp
    rw [wait_first_hit renv timeoutDs k (some p) hk hbefore hit]
    simp [hitOutcome, responseOutcome, hp]

/-- Witness for C10: with every audit append failing, the requester still
exits 0 on a successful response — same exit code as with healthy audit
logs — and a response whose payload lacks the `success` field makes it
exit 1. -/
theorem main_fence_audit_independent_witness :
    (main_fence ⟨true, true⟩ (some "id-1")
        (fun _ => some (some ⟨some true, none, none⟩)) 600).exitCode =
      (main_fence ⟨false, false⟩ (some "id-1")
        (fun _ => some (some ⟨some true, none, none⟩)) 600).exitCode ∧
      (wait_for_fence_response (fun _ => some (some ⟨none, none, none⟩)) 600).1.success
        = false := by
  constructor
  · exact (main_fence_audit_independent ⟨true, true⟩ ⟨false, false⟩ (some "id-1")
      (fun _ => some (some ⟨some true, none, none⟩)) 600).1
  · exact (main_fence_audit_independent ⟨true, true⟩ ⟨false, false⟩ (some "id-1")
      (fun _ => some (some ⟨none, none, none⟩)) 600).2.2.2.2.2
      0 ⟨none, none, none⟩ (by omega) (fun j hj => by omega) rfl rfl

/-! ## The polling watcher (`external_fence_watcher_simple.py`)

`main` (gfs2_recorder version, lines 130-168; the fence_recorder version
is identical at lines 176-214) polls the request directory, skips files
already in `processed_files`, calls `process_fence_request`, adds the file
to the set only when that returned `True`, and clears the whole set when
its size exceeds 1000.  `process_fence_request` (lines 85-127) wraps the
whole body in one `try/except`: a `json.load` failure returns `False`
before `perform_fence_action` runs; a failure while writing the response
returns `False` after `perform_fence_action` ran; on full success a
response is written, the request file removed, and it returns `True`. -/

/-- How one `process_fence_request(request_file)` call goes, as decided by
the environment (filesystem and JSON contents). -/
inductive ProcResult where
  /-- `json.load` raised: no fence action, no response, returns `False`. -/
  | parseFail
  /-- the fence action ran but writing the response file raised:
  returns `False`. -/
  | writeFail
  /-- the fence action ran, the response was written: returns `True`. -/
  | ok
deriving DecidableEq

/-- Observable state accumulated by the polling watcher: the
`processed_files` recency set, the multiset of filenames on which
`perform_fence_action` has been invoked so far, and the filenames for
which a response file was written. -/
structure WatchAcc where
  processed : List String
  invoked : List String
  responded : List String
deriving DecidableEq

/-- The per-file body of the watcher loop for a file that is *not* in
`processed_files`: run `process_fence_request` (whose effects are
summarized by `res`), add the file to the set on success, then clear the
set wholesale if its size exceeds 1000
(`external_fence_watcher_simple.py` lines 156-162). -/
def handleFile (res : ProcResult) (acc : WatchAcc) (f : String) : WatchAcc :=
  let invoked := if res = ProcResult.parseFail then acc.invoked else acc.invoked ++ [f]
  let responded := if res = ProcResult.ok then acc.responded ++ [f] else acc.responded
  let processed := if res = ProcResult.ok then acc.processed.insert f else acc.processed
  { processed := if processed.length > 1000 then [] else processed
    invoked := invoked
    responded := responded }

/-- The `for request_file in request_files` loop of one poll iteration
(`external_fence_watcher_simple.py` lines 151-162): files already in the
recency set are skipped. -/
def innerLoop (procAt : String → ProcResult) : List String → WatchAcc → WatchAcc
  | [], acc => acc
  | f :: rest, acc =>
    if f ∈ acc.processed then innerLoop procAt rest acc
    else innerLoop procAt rest (handleFile (procAt f) acc f)

/-- `T` poll iterations of the watcher's `while True` loop, starting from
the empty state; `obs t` is the glob result at iteration `t` and
`procAt t` the outcome of processing each file during iteration `t`. -/
def watcherRun (obs : Nat → List String) (procAt : Nat → String → ProcResult) :
    Nat → WatchAcc
  | 0 => ⟨[], [], []⟩
  | t + 1 => innerLoop (procAt t) (obs t) (watcherRun obs procAt t)

/-- Request-directory observations for the C3 counterexample: the same
request file is seen at every poll iteration. -/
def obsSame : Nat → List String := fun _ => ["r1.json"]

/-- Processing outcomes for the C3 counterexample: on the first iteration
the response write fails after the fence action ran; afterwards processing
succeeds. -/
def procRetry : Nat → String → ProcResult := fun t _ =>
  if t = 0 then ProcResult.writeFail else ProcResult.ok

/-- Counterexample to C3 as stated: the same filename is observed at
iterations 0 and 1, the recency set is never cleared (it never exceeds one
entry), yet `perform_fence_action` is invoked twice for it — because the
first `process_fence_request` invoked the fence action and then failed
writing the response, returned `False`, and so the filename was never
added to `processed_files`. -/
theorem watcher_double_invocation :
    (watcherRun obsSame procRetry 2).invoked = ["r1.json", "r1.json"] ∧
      List.count "r1.json" (watcherRun obsSame procRetry 2).invoked = 2 ∧
      (watcherRun obsSame procRetry 1).processed.length ≤ 1000 ∧
      (watcherRun obsSame procRetry 2).processed.length ≤ 1000 := by
  decide

theorem handleFile_invoked (res : ProcResult) (acc : WatchAcc) (g : String) :
    (handleFile res acc g).invoked =
      if res = ProcResult.parseFail then acc.invoked else acc.invoked ++ [g] := rfl

theorem handleFile_responded (res : ProcResult) (acc : WatchAcc) (g : String) :
    (handleFile res acc g).responded =
      if res = ProcResult.ok then acc.responded ++ [g] else acc.responded := rfl

theorem handleFile_processed (res : ProcResult) (acc : WatchAcc) (g : String) :
    (handleFile res acc g).processed =
      if (if res = ProcResult.ok then acc.processed.insert g
          else acc.processed).length > 1000 then []
        else (if res = ProcResult.ok then acc.processed.insert g else acc.processed) := rfl

theorem handleFile_processed_eq (res : ProcResult) (acc : WatchAcc) (g : String)
    (h : (if res = ProcResult.ok then acc.processed.insert g else acc.processed).length ≤ 1000) :
    (handleFile res acc g).processed =
      (if res = ProcResult.ok then acc.processed.insert g else acc.processed) := by
  rw [handleFile_processed]
  exact if_neg (by omega)

theorem handleFile_processed_clear (res : ProcResult) (acc : WatchAcc) (g : String)
    (h : (if res = ProcResult.ok then acc.processed.insert g else acc.processed).length > 1000) :
    (handleFile res acc g).processed = [] := by
  rw [handleFile_processed]
  exact if_pos h

/-- Invariant of the polling watcher's state when every observed filename
lies in the ≤ 1000-element universe `S` and every processing attempt of
`f` succeeds: the recency set stays duplicate-free inside `S` (hence is
never cleared), and `f` has been fence-actioned at most once, in which
case it is recorded in the set. -/
def WatchInv (S : List String) (f : String) (acc : WatchAcc) : Prop :=
  acc.processed.Nodup ∧ acc.processed ⊆ S ∧
    (List.count f acc.invoked = 0 ∨
      (List.count f acc.invoked = 1 ∧ f ∈ acc.processed))

theorem handleFile_inv (S : List String) (f : String) (_hS : S.Nodup)
    (hcard : S.length ≤ 1000) (res : ProcResult) (acc : WatchAcc) (g : String)
    (hg : g ∈ S) (hnot : g ∉ acc.processed) (hres : g = f → res = ProcResult.ok)
    (hinv : WatchInv S f acc) : WatchInv S f (handleFile res acc g) := by
  obtain ⟨hnodup, hsub, hcount⟩ := hinv
  have hnodup0 : (if res = ProcResult.ok then acc.processed.insert g
      else acc.processed).Nodup := by
    split
    · exact hnodup.insert
    · exact hnodup
  have hsub0 : (if res = ProcResult.ok then acc.processed.insert g
      else acc.processed) ⊆ S := by
    split
    · intro x hx
      rcases List.mem_insert_iff.1 hx with h | h
      · exact h ▸ hg
      · exact hsub h
    · exact hsub
  have hlen : (if res = ProcResult.ok then acc.processed.insert g
      else acc.processed).length ≤ 1000 :=
    le_trans (List.Subperm.length_le (List.subperm_of_subset hnodup0 hsub0)) hcard
  have hproc := handleFile_processed_eq res acc g hlen
  refine ⟨hproc ▸ hnodup0, hproc ▸ hsub0, ?_⟩
  by_cases hgf : g = f
  · subst hgf
    have hre : res = ProcResult.ok := hres rfl
    have hc0 : List.count g acc.invoked = 0 := by
      rcases hcount with h | ⟨_, hmem⟩
      · exact h
      · exact absurd hmem hnot
    right
    constructor
    · rw [handleFile_invoked]
      simp [hre, List.count_append, hc0]
    · rw [hproc]
      simp [hre, List.mem_insert_iff]
  · have hinvoked : List.count f (handleFile res acc g).invoked =
        List.count f acc.invoked := by
      rw [handleFile_invoked]
      split
      · rfl
      · have hz : List.count f [g] = 0 := by
          rw [List.count_eq_zero, List.mem_singleton]
          exact fun h => hgf h.symm
        rw [List.count_append, hz, Nat.add_zero]
    rcases hcount with h | ⟨h1, hmem⟩
    · left
      rw [hinvoked, h]
    · right
      refine ⟨by rw [hinvoked, h1], ?_⟩
      rw [hproc]
      split
      · exact List.mem_insert_iff.2 (Or.inr hmem)
      · exact hmem

theorem innerLoop_inv (S : List String) (f : String) (hS : S.Nodup)
    (hcard : S.length ≤ 1000) (p : String → ProcResult) (hpf : p f = ProcResult.ok) :
    ∀ files acc, (∀ g, g ∈ files → g ∈ S) → WatchInv S f acc →
      WatchInv S f (innerLoop p files acc) := by
  intro files
  induction files with
  | nil => intro acc _ hinv; exact hinv
  | cons g rest ih =>
    intro acc hfiles hinv
    rw [innerLoop]
    split
    · exact ih acc (fun x hx => hfiles x (List.mem_cons_of_mem _ hx)) hinv
    · refine ih _ (fun x hx => hfiles x (List.mem_cons_of_mem _ hx)) ?_
      exact handleFile_inv S f hS hcard (p g) acc g
        (hfiles g (List.mem_cons_self _ _)) (by assumption)
        (fun hgf => hgf ▸ hpf) hinv

theorem watcherRun_inv (obs : Nat → List String) (procAt : Nat → String → ProcResult)
    (S : List String) (f : String) (hS : S.Nodup) (hcard : S.length ≤ 1000)
    (hobs : ∀ t g, g ∈ obs t → g ∈ S) (hok : ∀ t, procAt t f = ProcResult.ok) :
    ∀ T, WatchInv S f (watcherRun obs procAt T) := by
  intro T
  induction T with
  | zero => refine ⟨?_, ?_, Or.inl ?_⟩ <;> simp [watcherRun]
  | succ t ih =>
    exact innerLoop_inv S f hS hcard (procAt t) (hok t) (obs t) _ (hobs t) ih

/-- C3 (amended): in the polling watcher, if every filename ever observed
lies in a duplicate-free universe of at most 1000 names (so the recency
set can never exceed its capacity and is never cleared) and every
processing attempt of `f` completes successfully (returns `True`), then
`perform_fence_action` is invoked at most once for `f`; and the recency
set is cleared wholesale exactly when, after processing a file, its size
exceeds 1000 entries.  (Without the success proviso the bound fails: see
the counterexample, where the fence action runs and the response write
then raises, so the filename is never added to the set and is
reprocessed.) -/
theorem watcher_at_most_once (obs : Nat → List String)
    (procAt : Nat → String → ProcResult) (S : List String) (f : String) (T : Nat)
    (hS : S.Nodup) (hcard : S.length ≤ 1000)
    (hobs : ∀ t g, g ∈ obs t → g ∈ S) (hok : ∀ t, procAt t f = ProcResult.ok) :
    List.count f (watcherRun obs procAt T).invoked ≤ 1 ∧
      (∀ res acc g,
        ((if res = ProcResult.ok then acc.processed.insert g
            else acc.processed).length ≤ 1000 →
          (handleFile res acc g).processed =
            (if res = ProcResult.ok then acc.processed.insert g else acc.processed)) ∧
        ((if res = ProcResult.ok then acc.processed.insert g
            else acc.processed).length > 1000 →
          (handleFile res acc g).processed = [])) := by
  constructor
  · rcases (watcherRun_inv obs procAt S f hS hcard hobs hok T).2.2 with h | ⟨h, _⟩
    · omega
    · omega
  · intro res acc g
    exact ⟨handleFile_processed_eq res acc g, handleFile_processed_clear res acc g⟩

/-- Witness for C3 (amended): one file observed at three consecutive
iterations, processing always succeeds — the fence action fires at most
once. -/
theorem watcher_at_most_once_witness :
    List.count "a.json"
      (watcherRun (fun _ => ["a.json"]) (fun _ _ => ProcResult.ok) 3).invoked ≤ 1 := by
  exact (watcher_at_most_once (fun _ => ["a.json"]) (fun _ _ => ProcResult.ok)
    ["a.json"] "a.json" 3 (by decide) (by decide)
    (fun t g hg => hg) (fun t => rfl)).1

/-- Response-directory state in which the response file exists from the
start but can never be parsed. -/
def envMalformedResp : RespEnv := fun _ => some none

/-- Counterexample to C9 as stated: for a malformed *Response* file the
requester does not abandon the file and wait for a timeout to convert the
situation into a failure — `wait_for_fence_response` catches the parse
exception and returns immediately (elapsed 0, far below the 600 ds
timeout) with the distinct status `"error"`, not `"timeout"`
(`fence_gfs2_recorder.py` lines 198-200). -/
theorem requester_malformed_response_immediate :
    wait_for_fence_response envMalformedResp 600 = (parseErrOutcome, 0) ∧
      parseErrOutcome.action = "error" ∧
      parseErrOutcome.action ≠ "timeout" ∧
      (0 : Nat) < 600 := by
  decide

theorem handleFile_parseFail_noop (acc : WatchAcc) (g : String)
    (h : acc.processed.length ≤ 1000) :
    handleFile ProcResult.parseFail acc g = acc := by
  obtain ⟨pr, inv, resp⟩ := acc
  have h0 : handleFile ProcResult.parseFail ⟨pr, inv, resp⟩ g =
      ⟨if pr.length > 1000 then [] else pr, inv, resp⟩ := rfl
  rw [h0]
  have h1 : (if pr.length > 1000 then ([] : List String) else pr) = pr :=
    if_neg (by simp at h ⊢; omega)
  rw [h1]

/-- Invariant for a filename whose every processing attempt fails at the
parse step: no response is ever produced for it and the fence action is
never invoked on it. -/
def DropInv (f : String) (acc : WatchAcc) : Prop :=
  f ∉ acc.responded ∧ List.count f acc.invoked = 0

theorem handleFile_drop (f : String) (res : ProcResult) (acc : WatchAcc) (g : String)
    (hres : g = f → res = ProcResult.parseFail) (hinv : DropInv f acc) :
    DropInv f (handleFile res acc g) := by
  obtain ⟨hresp, hinvk⟩ := hinv
  constructor
  · rw [handleFile_responded]
    split
    · rename_i hok
      intro hmem
      rcases List.mem_append.1 hmem with h | h
      · exact hresp h
      · have hgf : f = g := List.mem_singleton.1 h
        have := hres hgf.symm
        rw [this] at hok
        cases hok
    · exact hresp
  · rw [handleFile_invoked]
    split
    · exact hinvk
    · rename_i hpf
      have hgf : ¬ f = g := fun h => hpf (hres h.symm)
      have hz : List.count f [g] = 0 := by
        rw [List.count_eq_zero, List.mem_singleton]
        exact hgf
      rw [List.count_append, hz, Nat.add_zero, hinvk]

theorem innerLoop_drop (f : String) (p : String → ProcResult)
    (hpf : p f = ProcResult.parseFail) :
    ∀ files acc, DropInv f acc → DropInv f (innerLoop p files acc) := by
  intro files
  induction files with
  | nil => intro acc hinv; exact hinv
  | cons g rest ih =>
    intro acc hinv
    rw [innerLoop]
    split
    · exact ih acc hinv
    · exact ih _ (handleFile_drop f (p g) acc g (fun hgf => hgf ▸ hpf) hinv)

/-- C9 (amended): a malformed *Request* is logged and abandoned by the
watcher — the per-file exception handler makes its processing a no-op
(`process_fence_request` returns `False` before the fence action runs), so
across any whole run no response is ever produced for it, the fence action
is never invoked on it, and the watch loop continues with the remaining
files; the requester, seeing no response, converts this into a failure
outcome with status `"timeout"`.  A malformed *Response*, by contrast, is
resolved by the requester immediately: `wait_for_fence_response` returns
the parse-failure outcome (`success = false`, status `"error"`) at once,
without waiting out the timeout. -/
theorem malformed_message_handling (obs : Nat → List String)
    (procAt : Nat → String → ProcResult) (T : Nat) (f : String)
    (hmal : ∀ t, procAt t f = ProcResult.parseFail) :
    f ∉ (watcherRun obs procAt T).responded ∧
      List.count f (watcherRun obs procAt T).invoked = 0 ∧
      (∀ acc g, acc.processed.length ≤ 1000 →
        handleFile ProcResult.parseFail acc g = acc) ∧
      (∀ env timeoutDs, (∀ j, env j = none) →
        (wait_for_fence_response env timeoutDs).1.success = false ∧
          (wait_for_fence_response env timeoutDs).1.action = "timeout") ∧
      (∀ env timeoutDs, 0 < timeoutDs → env 0 = some none →
        wait_for_fence_response env timeoutDs = (parseErrOutcome, 0) ∧
          parseErrOutcome.success = false ∧ parseErrOutcome.action = "error") := by
  have hrun : ∀ t, DropInv f (watcherRun obs procAt t) := by
    intro t
    induction t with
    | zero =>
      constructor
      · intro h; cases h
      · rfl
    | succ n ih => exact innerLoop_drop f (procAt n) (hmal n) (obs n) _ ih
  refine ⟨(hrun T).1, (hrun T).2, handleFile_parseFail_noop, ?_, ?_⟩
  · intro env timeoutDs henv
    rw [wait_none_eq env henv timeoutDs]
    exact ⟨rfl, rfl⟩
  · intro env timeoutDs htd hit
    refine ⟨?_, rfl, rfl⟩
    have h := wait_first_hit env timeoutDs 0 none (by omega) (fun j hj => by omega) hit
    simpa [hitOutcome] using h

/-- Witness for C9 (amended): a request file that never parses is seen at
two iterations; it gets no response and no fence action. -/
theorem malformed_message_handling_witness :
    "bad.json" ∉
        (watcherRun (fun _ => ["bad.json"]) (fun _ _ => ProcResult.parseFail) 2).responded ∧
      List.count "bad.json"
        (watcherRun (fun _ => ["bad.json"]) (fun _ _ => ProcResult.parseFail) 2).invoked
        = 0 := by
  have h := malformed_message_handling (fun _ => ["bad.json"])
    (fun _ _ => ProcResult.parseFail) 2 "bad.json" (fun t => rfl)
  exact ⟨h.1, h.2.1⟩

/-! ## File-completeness detection (`wait_for_file_complete`)

`external_fence_watcher_simple.py` (fence_recorder version, lines 103-123)
and `external_fence_watcher.py` (fence_recorder version, lines 70-90)
contain the identical reader-side completeness loop: sample
`os.path.getsize` once per 0.1 s tick, declare the file complete when the
current sample equals the previous one and is non-zero, sleep one more
0.1 s grace tick, and return `True`; an `OSError` keeps the previous
sample and just sleeps; when the elapsed time reaches the timeout, log a
warning and return `False`. -/

/-- `sizes i` is what `os.path.getsize(filepath)` yields at tick `i`:
`none` when it raises (file absent mid-write), `some n` for size `n`. -/
abbrev SizeEnv := Nat → Option Nat

/-- The sampling loop of `wait_for_file_complete`; tick `i` is the sample
taken at elapsed time `i` tenths of a second, `last?` the previous sample
(initially `last_size = -1`, which never equals a real size, modelled as
`none`).  Returns the result and the total elapsed ticks (the success
exit spends one extra grace tick).  Fuel exhaustion coincides with the
timeout exit and is never reached from `wait_for_file_complete`. -/
def fileLoop (sizes : SizeEnv) (timeoutT : Nat) : Nat → Nat → Option Nat → Bool × Nat
  | 0, i, _ => (false, i)
  | fuel + 1, i, last? =>
    if i < timeoutT then
      match sizes i with
      | some cur =>
        if last? = some cur ∧ 0 < cur then (true, i + 1)
        else fileLoop sizes timeoutT fuel (i + 1) (some cur)
      | none => fileLoop sizes timeoutT fuel (i + 1) last?
    else (false, i)

/-- `wait_for_file_complete(filepath, timeout)` with the timeout in 0.1 s
ticks (the source default `timeout=5` is 50 ticks). -/
def wait_for_file_complete (sizes : SizeEnv) (timeoutT : Nat) : Bool × Nat :=
  fileLoop sizes timeoutT timeoutT 0 none

/-- The value of the loop's `last_size` variable on entering tick `m`: the
most recent successful size sample before `m` (`none` while none has
succeeded, standing for the initial `-1`). -/
def lastSample (sizes : SizeEnv) : Nat → Option Nat
  | 0 => none
  | m + 1 =>
    match sizes m with
    | some s => some s
    | none => lastSample sizes m

/-- Whether the success condition `current_size == last_size and
current_size > 0` fires at tick `j`. -/
def stableAt (sizes : SizeEnv) (j : Nat) : Bool :=
  match sizes j, lastSample sizes j with
  | some s, some t => s == t && decide (0 < s)
  | _, _ => false

/-- The gate in the fence_recorder watcher's `process_fence_request`
(simple version, lines 129-132): the request file is parsed only when
`wait_for_file_complete` returned `True`. -/
def fr_parse_attempted (sizes : SizeEnv) (timeoutT : Nat) : Bool :=
  (wait_for_file_complete sizes timeoutT).1

theorem lastSample_succ_some (sizes : SizeEnv) (m s : Nat) (h : sizes m = some s) :
    lastSample sizes (m + 1) = some s := by
  simp [lastSample, h]

theorem lastSample_succ_none (sizes : SizeEnv) (m : Nat) (h : sizes m = none) :
    lastSample sizes (m + 1) = lastSample sizes m := by
  simp [lastSample, h]

theorem stableAt_true_iff (sizes : SizeEnv) (j : Nat) :
    stableAt sizes j = true ↔
      ∃ s, sizes j = some s ∧ lastSample sizes j = some s ∧ 0 < s := by
  unfold stableAt
  cases hj : sizes j with
  | none => simp
  | some s =>
    cases hl : lastSample sizes j with
    | none => simp
    | some t =>
      simp only [Bool.and_eq_true, beq_iff_eq, decide_eq_true_eq]
      constructor
      · rintro ⟨rfl, hs⟩
        exact ⟨s, rfl, rfl, hs⟩
      · rintro ⟨u, hu, ht, hs⟩
        injection hu with hu
        injection ht with ht
        subst hu
        exact ⟨ht.symm, hs⟩

theorem fileLoop_no_trigger (sizes : SizeEnv) (timeoutT : Nat) :
    ∀ fuel i, fuel + i = timeoutT →
      (∀ j, i ≤ j → j < timeoutT → stableAt sizes j = false) →
      fileLoop sizes timeoutT fuel i (lastSample sizes i) = (false, timeoutT) := by
  intro fuel
  induction fuel with
  | zero =>
    intro i hi _
    have : i = timeoutT := by omega
    rw [fileLoop, this]
  | succ n ih =>
    intro i hi hno
    have hiT : i < timeoutT := by omega
    rw [fileLoop, if_pos hiT]
    cases hsz : sizes i with
    | some cur =>
      have hcond : ¬ (lastSample sizes i = some cur ∧ 0 < cur) := by
        rintro ⟨h1, h2⟩
        have : stableAt sizes i = true :=
          (stableAt_true_iff sizes i).2 ⟨cur, hsz, h1, h2⟩
        rw [hno i le_rfl hiT] at this
        cases this
      show (if lastSample sizes i = some cur ∧ 0 < cur then ((true, i + 1) : Bool × Nat)
          else fileLoop sizes timeoutT n (i + 1) (some cur)) = _
      rw [if_neg hcond, ← lastSample_succ_some sizes i cur hsz]
      exact ih (i + 1) (by omega) (fun j hj hj' => hno j (by omega) hj')
    | none =>
      show fileLoop sizes timeoutT n (i + 1) (lastSample sizes i) = _
      rw [← lastSample_succ_none sizes i hsz]
      exact ih (i + 1) (by omega) (fun j hj hj' => hno j (by omega) hj')

theorem fileLoop_trigger (sizes : SizeEnv) (timeoutT j : Nat) (hjT : j < timeoutT)
    (hj : stableAt sizes j = true) :
    ∀ fuel i, fuel + i = timeoutT → i ≤ j →
      (∀ m, i ≤ m → m < j → stableAt sizes m = false) →
      fileLoop sizes timeoutT fuel i (lastSample sizes i) = (true, j + 1) := by
  intro fuel
  induction fuel with
  | zero =>
    intro i hi hij _
    omega
  | succ n ih =>
    intro i hi hij hno
    have hiT : i < timeoutT := by omega
    rw [fileLoop, if_pos hiT]
    rcases Nat.lt_or_ge i j with hlt | hge
    · cases hsz : sizes i with
      | some cur =>
        have hcond : ¬ (lastSample sizes i = some cur ∧ 0 < cur) := by
          rintro ⟨h1, h2⟩
          have : stableAt sizes i = true :=
            (stableAt_true_iff sizes i).2 ⟨cur, hsz, h1, h2⟩
          rw [hno i le_rfl hlt] at this
          cases this
        show (if lastSample sizes i = some cur ∧ 0 < cur then ((true, i + 1) : Bool × Nat)
            else fileLoop sizes timeoutT n (i + 1) (some cur)) = _
        rw [if_neg hcond, ← lastSample_succ_some sizes i cur hsz]
        exact ih (i + 1) (by omega) hlt (fun m hm hm' => hno m (by omega) hm')
      | none =>
        show fileLoop sizes timeoutT n (i + 1) (lastSample sizes i) = _
        rw [← lastSample_succ_none sizes i hsz]
        exact ih (i + 1) (by omega) hlt (fun m hm hm' => hno m (by omega) hm')
    · have hieq : i = j := by omega
      subst hieq
      obtain ⟨s, hsz, hl, hs⟩ := (stableAt_true_iff sizes i).1 hj
      rw [hsz]
      show (if lastSample sizes i = some s ∧ 0 < s then ((true, i + 1) : Bool × Nat)
          else fileLoop sizes timeoutT n (i + 1) (some s)) = _
      rw [if_pos ⟨hl, hs⟩]

theorem lastSample_eq_some_iff (sizes : SizeEnv) :
    ∀ j s, lastSample sizes j = some s ↔
      ∃ i, i < j ∧ sizes i = some s ∧ ∀ m, i < m → m < j → sizes m = none := by
  intro j
  induction j with
  | zero =>
    intro s
    constructor
    · intro h; cases h
    · rintro ⟨i, hi, _⟩; omega
  | succ j ih =>
    intro s
    cases hj : sizes j with
    | some t =>
      rw [lastSample_succ_some sizes j t hj]
      constructor
      · intro h
        injection h with h
        subst h
        exact ⟨j, Nat.lt_succ_self j, hj, fun m hm hm' => by omega⟩
      · rintro ⟨i, hi, hsz, hint⟩
        rcases Nat.lt_succ_iff_lt_or_eq.1 hi with hij | rfl
        · have := hint j hij (Nat.lt_succ_self j)
          rw [this] at hj
          cases hj
        · rw [hsz] at hj
          injection hj with h
          rw [h]
    | none =>
      rw [lastSample_succ_none sizes j hj, ih s]
      constructor
      · rintro ⟨i, hi, hsz, hint⟩
        refine ⟨i, by omega, hsz, fun m hm hm' => ?_⟩
        rcases Nat.lt_succ_iff_lt_or_eq.1 hm' with h | rfl
        · exact hint m hm h
        · exact hj
      · rintro ⟨i, hi, hsz, hint⟩
        have hij : i < j := by
          rcases Nat.lt_succ_iff_lt_or_eq.1 hi with h | rfl
          · exact h
          · rw [hsz] at hj; cases hj
        exact ⟨i, hij, hsz, fun m hm hm' => hint m hm (by omega)⟩

theorem stableAt_iff_two_samples (sizes : SizeEnv) (j : Nat) :
    stableAt sizes j = true ↔
      ∃ i s, i < j ∧ sizes i = some s ∧ sizes j = some s ∧ 0 < s ∧
        ∀ m, i < m → m < j → sizes m = none := by
  rw [stableAt_true_iff]
  constructor
  · rintro ⟨s, hsj, hl, hs⟩
    obtain ⟨i, hi, hsz, hint⟩ := (lastSample_eq_some_iff sizes j s).1 hl
    exact ⟨i, s, hi, hsz, hsj, hs, hint⟩
  · rintro ⟨i, s, hi, hsz, hsj, hs, hint⟩
    exact ⟨s, hsj, (lastSample_eq_some_iff sizes j s).2 ⟨i, hi, hsz, hint⟩, hs⟩

/-- C4: `wait_for_file_complete` returns `True` iff, within the bounded
window, the sampled size was non-zero and unchanged across two consecutive
(successful) samples — equivalently, iff the stability condition fires at
some tick `j < timeout`, which means there are samples `i < j` of the same
non-zero size with only failed reads in between; the earliest such `j`
makes the loop return at elapsed `j + 1` ticks (the extra tick is the
grace sleep before returning).  If the size never stabilizes, it returns
`False` with elapsed time exactly the timeout, and the caller then does
not parse the file on that pass. -/
theorem wait_for_file_complete_spec (sizes : SizeEnv) (timeoutT : Nat) :
    ((wait_for_file_complete sizes timeoutT).1 = true ↔
        ∃ j, j < timeoutT ∧ stableAt sizes j = true) ∧
      (∀ j, stableAt sizes j = true ↔
        ∃ i s, i < j ∧ sizes i = some s ∧ sizes j = some s ∧ 0 < s ∧
          ∀ m, i < m → m < j → sizes m = none) ∧
      (∀ j, j < timeoutT → stableAt sizes j = true →
        (∀ m, m < j → stableAt sizes m = false) →
        wait_for_file_complete sizes timeoutT = (true, j + 1)) ∧
      ((wait_for_file_complete sizes timeoutT).1 = false →
        (wait_for_file_complete sizes timeoutT).2 = timeoutT ∧
          fr_parse_attempted sizes timeoutT = false ∧
          ∀ j, j < timeoutT → stableAt sizes j = false) := by
  have hkey : ∀ j, j < timeoutT → stableAt sizes j = true →
      (∀ m, m < j → stableAt sizes m = false) →
      wait_for_file_complete sizes timeoutT = (true, j + 1) := by
    intro j hjT hj hmin
    exact fileLoop_trigger sizes timeoutT j hjT hj timeoutT 0 (by omega) (by omega)
      (fun m _ hm' => hmin m hm')
  have hnone : (¬ ∃ j, j < timeoutT ∧ stableAt sizes j = true) →
      wait_for_file_complete sizes timeoutT = (false, timeoutT) := by
    intro hno
    refine fileLoop_no_trigger sizes timeoutT timeoutT 0 (by omega) ?_
    intro j _ hjT
    by_contra h
    exact hno ⟨j, hjT, by revert h; cases stableAt sizes j <;> simp⟩
  refine ⟨?_, stableAt_iff_two_samples sizes, hkey, ?_⟩
  · constructor
    · intro htrue
      by_contra hno
      have := hnone hno
      rw [this] at htrue
      cases htrue
    · intro hex
      have hdec : DecidablePred (fun j => j < timeoutT ∧ stableAt sizes j = true) :=
        fun j => inferInstance
      obtain ⟨hjT, hj⟩ := Nat.find_spec hex
      have hmin : ∀ m, m < Nat.find hex → stableAt sizes m = false := by
        intro m hm
        have := Nat.find_min hex hm
        by_contra h
        exact this ⟨by omega, by revert h; cases stableAt sizes m <;> simp⟩
      rw [hkey (Nat.find hex) hjT hj hmin]
  · intro hfalse
    have hno : ¬ ∃ j, j < timeoutT ∧ stableAt sizes j = true := by
      intro hex
      obtain ⟨hjT, hj⟩ := Nat.find_spec hex
      have hmin : ∀ m, m < Nat.find hex → stableAt sizes m = false := by
        intro m hm
        have := Nat.find_min hex hm
        by_contra h
        exact this ⟨by omega, by revert h; cases stableAt sizes m <;> simp⟩
      rw [hkey (Nat.find hex) hjT hj hmin] at hfalse
      cases hfalse
    have := hnone hno
    rw [this]
    refine ⟨rfl, ?_, ?_⟩
    · unfold fr_parse_attempted
      rw [this]
    · intro j hjT
      by_contra h
      exact hno ⟨j, hjT, by revert h; cases stableAt sizes j <;> simp⟩

/-- Sample trace for the C4 witness: size 7 at ticks 0 and 1, a failed
read afterwards. -/
def sizesStable : SizeEnv := fun i => if i ≤ 1 then some 7 else none

/-- Witness for C4 with the source default timeout (5 s = 50 ticks): two
consecutive equal non-zero samples at ticks 0 and 1 make the reader accept
the file at elapsed 2 ticks (1 confirming tick + 1 grace tick). -/
theorem wait_for_file_complete_spec_witness :
    (wait_for_file_complete sizesStable 50).1 = true ∧
      wait_for_file_complete sizesStable 50 = (true, 2) := by
  have h := wait_for_file_complete_spec sizesStable 50
  constructor
  · exact h.1.2 ⟨1, by decide, by decide⟩
  · exact h.2.2.1 1 (by decide) (by decide) (by decide)

/-! ## Request files (`write_fence_request`, `fence_gfs2_recorder.py` lines 138-163) -/

/-- Payload of a fence request file (`fence_gfs2_recorder.py` lines
147-154; timestamp and recorder_node omitted as irrelevant to the
claims). -/
structure FenceRequest where
  request_id : String
  action : String
  target_node : String
  gfs2_filesystems : List String
deriving DecidableEq

/-- A request file as written: its name (relative to `REQUEST_DIR`) and
its JSON payload. -/
structure FenceRequestFile where
  filename : String
  payload : FenceRequest
deriving DecidableEq

/-- `write_fence_request(action, target_node, gfs2_filesystems)`
(`fence_gfs2_recorder.py` lines 138-163).  The Python function draws
`request_id = str(uuid.uuid4())` itself; the model takes the freshly
generated id as an argument and the fresh-name supply is quantified in the
theorem. -/
def write_fence_request (request_id action target_node : String)
    (gfs2_filesystems : List String) : FenceRequestFile :=
  { filename := request_id ++ ".json"
    payload :=
      { request_id := request_id
        action := action
        target_node := target_node
        gfs2_filesystems := gfs2_filesystems } }

/-- Recover the request id embedded in a `<id>.json` filename, as the
watcher's correlation does. -/
def stripJsonSuffix (s : String) : Option String :=
  if ".json".data <:+ s.data then
    some ⟨s.data.take (s.data.length - 5)⟩
  else none

theorem string_data_inj (s t : String) (h : s.data = t.data) : s = t := by
  cases s; cases t; exact congrArg String.mk h

theorem stripJsonSuffix_append (id : String) :
    stripJsonSuffix (id ++ ".json") = some id := by
  unfold stripJsonSuffix
  rw [String.data_append]
  rw [if_pos ⟨id.data, rfl⟩]
  have hlen : (id.data ++ ".json".data).length - 5 = id.data.length := by
    rw [List.length_append]
    rfl
  rw [hlen]
  have htake : (id.data ++ ".json".data).take id.data.length = id.data :=
    List.take_left id.data ".json".data
  rw [htake]

/-- C5: the `request_id` stored in the JSON payload of a written request
file equals the id embedded in its `<request_id>.json` filename (so
parsing a stabilized request file recovers the filename's id), and the
filename is determined injectively by the id — so with the fresh-UUID
supply being injective, distinct invocations never produce the same
filename and exactly one request file exists per id. -/
theorem write_fence_request_id_coherent (request_id action target_node : String)
    (gfs2_filesystems : List String) :
    (write_fence_request request_id action target_node gfs2_filesystems).payload.request_id
        = request_id ∧
      (write_fence_request request_id action target_node gfs2_filesystems).filename
        = request_id ++ ".json" ∧
      stripJsonSuffix
          (write_fence_request request_id action target_node gfs2_filesystems).filename =
        some ((write_fence_request request_id action target_node
          gfs2_filesystems).payload.request_id) ∧
      (∀ id2 a2 t2 f2,
        (write_fence_request id2 a2 t2 f2).filename =
            (write_fence_request request_id action target_node gfs2_filesystems).filename ↔
          id2 = request_id) ∧
      (∀ supply : Nat → String, Function.Injective supply → ∀ n m : Nat, n ≠ m →
        (write_fence_request (supply n) action target_node gfs2_filesystems).filename ≠
          (write_fence_request (supply m) action target_node gfs2_filesystems).filename) := by
  refine ⟨rfl, rfl, stripJsonSuffix_append request_id, ?_, ?_⟩
  · intro id2 a2 t2 f2
    constructor
    · intro h
      have hd := congrArg String.data h
      simp only [write_fence_request] at hd
      rw [String.data_append, String.data_append] at hd
      exact string_data_inj _ _ (List.append_cancel_right hd)
    · intro h
      rw [h]
      rfl
  · intro supply hinj n m hnm h
    have hd := congrArg String.data h
    simp only [write_fence_request] at hd
    rw [String.data_append, String.data_append] at hd
    exact hnm (hinj (string_data_inj _ _ (List.append_cancel_right hd)))

/-- Witness for C5 on a concrete request: payload id, filename and
round-trip agree, and a concrete injective supply gives distinct filenames
for distinct invocations. -/
theorem write_fence_request_id_coherent_witness :
    stripJsonSuffix (write_fence_request "ab12" "reboot" "rabbit-03" ["fs-a"]).filename
        = some "ab12" ∧
      (write_fence_request "x" "reboot" "rabbit-03" ["fs-a"]).filename ≠
        (write_fence_request "xx" "reboot" "rabbit-03" ["fs-a"]).filename := by
  have h := write_fence_request_id_coherent "ab12" "reboot" "rabbit-03" ["fs-a"]
  refine ⟨h.2.2.1, ?_⟩
  have h2 := write_fence_request_id_coherent "xx" "reboot" "rabbit-03" ["fs-a"]
  have hsup : Function.Injective (fun n => String.mk (List.replicate n 'x')) := by
    intro a b hab
    have := congrArg (fun s : String => s.data.length) hab
    simpa [List.length_replicate] using this
  have := h2.2.2.2.2 (fun n => String.mk (List.replicate n 'x')) hsup 1 2 (by decide)
  simpa using this

/-! ## Response filenames (claim C6)

The fence_recorder watchers write the response as
`f"{target_node}-{request_id}.json"`
(`fence_recorder/external_fence_watcher_simple.py` line 148,
`fence_recorder/external_fence_watcher.py` line 117), but the
gfs2_recorder watchers write it as `f"{request_id}.json"` with no target
namespace (`gfs2_recorder/external_fence_watcher_simple.py` line 102,
`gfs2_recorder/external_fence_watcher.py` line 71), and the gfs2 requester
looks it up under `f"{request_id}.json"` as well
(`fence_gfs2_recorder.py` line 172). -/

/-- Response filename written by the gfs2_recorder watchers
(`gfs2_recorder/external_fence_watcher_simple.py` line 102). -/
def gfs2WatcherResponseFilename (request_id : String) : String :=
  request_id ++ ".json"

/-- Response filename written by the fence_recorder watchers
(`fence_recorder/external_fence_watcher_simple.py` line 148). -/
def fenceRecorderResponseFilename (target_node request_id : String) : String :=
  target_node ++ "-" ++ request_id ++ ".json"

/-- Python-style substring test (`needle in haystack`). -/
def containsSub (pat : List Char) : List Char → Bool
  | [] => pat.isPrefixOf []
  | c :: rest => pat.isPrefixOf (c :: rest) || containsSub pat rest

/-- Counterexample to C6 as stated: the gfs2_recorder watcher processing a
request for target `rabbit-03` with id `1234` writes its response to
`1234.json` — the target node appears nowhere in the filename, so that
watcher's responses are not namespaced by target node (the matching gfs2
requester also looks up the un-namespaced `1234.json`). -/
theorem gfs2_response_not_namespaced :
    gfs2WatcherResponseFilename "1234" = "1234.json" ∧
      containsSub "rabbit-03".data "1234.json".data = false ∧
      requesterResponseFilename "1234" = "1234.json" ∧
      fenceRecorderResponseFilename "rabbit-03" "1234" = "rabbit-03-1234.json" := by
  decide

/-- C6 (amended): the fence_recorder watchers namespace the response
filename by target node in addition to the request id
(`<target>-<id>.json`, with the target a prefix and the id an infix of the
name), so a shared response directory serving different targets cannot
collide there; the gfs2_recorder watcher instead writes the un-namespaced
`<id>.json`, and the gfs2 requester locates responses under that same
un-namespaced scheme, so the writer and reader of each pair agree. -/
theorem response_filename_schemes (target_node request_id : String) :
    fenceRecorderResponseFilename target_node request_id =
        target_node ++ "-" ++ request_id ++ ".json" ∧
      target_node.data <+: (fenceRecorderResponseFilename target_node request_id).data ∧
      request_id.data <:+: (fenceRecorderResponseFilename target_node request_id).data ∧
      gfs2WatcherResponseFilename request_id = requesterResponseFilename request_id := by
  refine ⟨rfl, ?_, ?_, rfl⟩
  · unfold fenceRecorderResponseFilename
    rw [String.data_append, String.data_append, String.data_append]
    simp only [List.append_assoc]
    exact List.prefix_append _ _
  · unfold fenceRecorderResponseFilename
    rw [String.data_append, String.data_append, String.data_append]
    exact ⟨target_node.data ++ "-".data, ".json".data, by simp⟩

/-! ## GFS2 discovery (`fence_gfs2_recorder.py` lines 224-378)

`discover_gfs2_filesystems` tries three tiers in order and takes the first
truthy (non-`None`, non-empty) result: kubectl over NnfStorage resources,
`pcs status resources` scraping (DLM), and `pcs config show` scraping
(Pacemaker).  The kubectl availability probe
`subprocess.run(["which", KUBECTL_CMD], ...)` at line 260 is the one
subprocess call *outside* any `try` block; everything else is guarded.
Python string operations used by the scraping are reimplemented here over
`List Char` with Python semantics (`str.split()` drops empty tokens,
`str.split(sep)` keeps them, `str.replace` replaces all occurrences,
membership is substring containment); `list(set(...))` has an
implementation-defined iteration order (string hashing is randomized), so
it is modelled by an explicit reordering function `setOrder`. -/

/-- Python `str.lower()` (ASCII suffices for the scraped tokens). -/
def pyLower (s : List Char) : List Char := s.map Char.toLower

/-- Python `str.strip()`. -/
def pyStrip (s : List Char) : List Char :=
  ((s.dropWhile Char.isWhitespace).reverse.dropWhile Char.isWhitespace).reverse

/-- Python `str.split()` with no argument: split on whitespace runs,
dropping empty tokens. -/
def pySplitWs (s : List Char) : List (List Char) :=
  (s.splitOnP Char.isWhitespace).filter (fun t => !t.isEmpty)

/-- Python `str.replace(pat, rep)`: replace all non-overlapping
occurrences left to right.  The fuel is the input length, which bounds the
number of steps since every step consumes at least one character. -/
def pyReplaceAux (pat rep : List Char) : Nat → List Char → List Char
  | 0, l => l
  | fuel + 1, l =>
    match l with
    | [] => []
    | c :: rest =>
      if pat.isPrefixOf (c :: rest) ∧ pat ≠ [] then
        rep ++ pyReplaceAux pat rep fuel ((c :: rest).drop pat.length)
      else c :: pyReplaceAux pat rep fuel rest

/-- Python `str.replace(pat, rep)` (entry point). -/
def pyReplace (pat rep l : List Char) : List Char :=
  pyReplaceAux pat rep l.length l

/-- One token of a `pcs status resources` line, handled as at
`fence_gfs2_recorder.py` lines 324-330: a token containing `gfs2` and a
colon contributes its last colon-segment; otherwise a token starting with
`gfs2-` contributes itself with all `gfs2-` occurrences removed. -/
def parseDlmPart (part : List Char) : List (List Char) :=
  if containsSub "gfs2".data (pyLower part) && part.contains ':' then
    [(part.splitOn ':').getLastD []]
  else if "gfs2-".data.isPrefixOf part then
    [pyReplace "gfs2-".data [] part]
  else []

/-- One line of `pcs status resources` output, handled as at
`fence_gfs2_recorder.py` lines 320-330: only lines containing `gfs2`
(case-insensitively) are scanned, token by token. -/
def parseDlmLine (line : List Char) : List (List Char) :=
  if containsSub "gfs2".data (pyLower line) then
    (pySplitWs line).foldl (fun acc part => acc ++ parseDlmPart part) []
  else []

/-- Filesystem names parsed out of the whole `pcs status resources`
stdout (`fence_gfs2_recorder.py` lines 316-330): strip, split into lines,
scan each. -/
def dlmParse (stdout : String) : List String :=
  (((pyStrip stdout.data).splitOn '\n').foldl
    (fun acc line => acc ++ parseDlmLine line) []).map (fun cs => String.mk cs)

/-- `try_dlm_discovery` (`fence_gfs2_recorder.py` lines 301-339): the
whole body sits inside `try/except Exception`, so a raising or timed-out
`pcs` call (`pcsOut = none`) degrades to `None`; on `returncode == 0` with
non-blank stdout the parsed names, if any, are returned as
`list(set(names))` — `setOrder` supplies the set's iteration order. -/
def try_dlm_discovery (setOrder : List String → List String)
    (pcsOut : Option (Int × String)) : Option (List String) :=
  match pcsOut with
  | none => none
  | some (rc, out) =>
    if rc = 0 ∧ pyStrip out.data ≠ [] then
      if dlmParse out ≠ [] then some (setOrder (dlmParse out)) else none
    else none

/-- One line of `pcs config show` output, handled as at
`fence_gfs2_recorder.py` lines 361-369: on lines containing `gfs2` and
`resource` or `primitive`, a token equal to `primitive`/`resource`
(lowercased) makes the *next* token a candidate resource name, kept if it
contains `gfs2`, with `gfs2-` occurrences removed. -/
def parsePcmkLine (line : List Char) : List (List Char) :=
  if containsSub "gfs2".data (pyLower line) &&
      (containsSub "resource".data (pyLower line) ||
        containsSub "primitive".data (pyLower line)) then
    (List.range (pySplitWs line).length).foldl (fun acc i =>
      if (pyLower ((pySplitWs line).getD i []) = "primitive".data ∨
            pyLower ((pySplitWs line).getD i []) = "resource".data) ∧
          i + 1 < (pySplitWs line).length then
        if containsSub "gfs2".data (pyLower ((pySplitWs line).getD (i + 1) [])) then
          acc ++ [pyReplace "gfs2-".data [] ((pySplitWs line).getD (i + 1) [])]
        else acc
      else acc) []
  else []

/-- Resource names parsed out of the whole `pcs config show` stdout
(`fence_gfs2_recorder.py` lines 356-369). -/
def pcmkParse (stdout : String) : List String :=
  (((pyStrip stdout.data).splitOn '\n').foldl
    (fun acc line => acc ++ parsePcmkLine line) []).map (fun cs => String.mk cs)

/-- `try_pacemaker_discovery` (`fence_gfs2_recorder.py` lines 342-378),
same guarded shape as the DLM tier. -/
def try_pacemaker_discovery (setOrder : List String → List String)
    (pcsOut : Option (Int × String)) : Option (List String) :=
  match pcsOut with
  | none => none
  | some (rc, out) =>
    if rc = 0 ∧ pyStrip out.data ≠ [] then
      if pcmkParse out ≠ [] then some (setOrder (pcmkParse out)) else none
    else none

/-- An item of the decoded `kubectl get nnfstorage -A -o json` document:
its `metadata.name` and `spec.fileSystemType`. -/
structure KubeItem where
  name : String
  fileSystemType : String
deriving DecidableEq

/-- Result of the guarded `subprocess.run(kubectl_cmd, ...)` call:
`raised` covers `TimeoutExpired` and any other exception caught at
`fence_gfs2_recorder.py` lines 293-296. -/
inductive RunOutcome where
  | raised
  | completed (rc : Int) (stdout : String)
deriving DecidableEq

/-- Everything the environment decides for one `discover_gfs2_filesystems`
call: the discovery-enabled flag (re-read from the environment at line
228), the behaviour of the unguarded `which` probe (line 260: whether
`subprocess.run` itself raises, and its returncode), the kubectl run, the
JSON-decode of its stdout (`none` = `json.JSONDecodeError`, caught), and
the two `pcs` invocations (`none` = raised/timed out, caught). -/
structure DiscoverEnv where
  discoveryEnabled : Bool
  whichRaises : Bool
  whichRc : Int
  kubectlRun : RunOutcome
  kubectlJson : Option (List KubeItem)
  dlmPcs : Option (Int × String)
  pcmkPcs : Option (Int × String)
deriving DecidableEq

/-- The guarded region of `try_kubectl_discovery`
(`fence_gfs2_recorder.py` lines 266-296, the `try` body after the
availability probe): every failure path inside it is caught and falls
through to `return None`, so it is total. -/
def kubectlGuarded : RunOutcome → Option (List KubeItem) → Option (List String)
  | RunOutcome.raised, _ => none
  | RunOutcome.completed rc out, json =>
    if rc = 0 ∧ out ≠ "" then
      match json with
      | none => none
      | some items =>
        if ((items.filter (fun it => it.fileSystemType == "gfs2")).map KubeItem.name) ≠ [] then
          some ((items.filter (fun it => it.fileSystemType == "gfs2")).map KubeItem.name)
        else none
    else none

/-- `try_kubectl_discovery` (`fence_gfs2_recorder.py` lines 257-298).  The
`which` probe is outside any `try`, so if `subprocess.run` itself raises
there the exception escapes this function (and `discover_gfs2_filesystems`,
which does not catch either); everything afterwards is guarded. -/
def try_kubectl_discovery (env : DiscoverEnv) : Except String (Option (List String)) :=
  if env.whichRaises then Except.error "FileNotFoundError: which" else
  if env.whichRc ≠ 0 then Except.ok none else
  Except.ok (kubectlGuarded env.kubectlRun env.kubectlJson)

/-- The tier cascade of `discover_gfs2_filesystems` after the kubectl tier
has produced `kres` without raising: Python truthiness (`if result:`)
makes `None` and `[]` both fall through to the next tier. -/
def discoverTail (setOrder : List String → List String) (kres : Option (List String))
    (dlmPcs pcmkPcs : Option (Int × String)) : List String :=
  if kres.getD [] ≠ [] then kres.getD []
  else if (try_dlm_discovery setOrder dlmPcs).getD [] ≠ [] then
    (try_dlm_discovery setOrder dlmPcs).getD []
  else if (try_pacemaker_discovery setOrder pcmkPcs).getD [] ≠ [] then
    (try_pacemaker_discovery setOrder pcmkPcs).getD []
  else ["none-detected"]

/-- `discover_gfs2_filesystems` (`fence_gfs2_recorder.py` lines 224-254):
sentinel for disabled discovery, then the three tiers by Python
truthiness, then the ran-but-found-nothing sentinel. -/
def discover_gfs2_filesystems (setOrder : List String → List String)
    (env : DiscoverEnv) : Except String (List String) :=
  if !env.discoveryEnabled then Except.ok ["discovery-disabled"] else
  match try_kubectl_discovery env with
  | Except.error e => Except.error e
  | Except.ok kres => Except.ok (discoverTail setOrder kres env.dlmPcs env.pcmkPcs)

/-- A possible iteration order of a CPython `set` of strings: string
hashing is seed-randomized, so reversed insertion order is as legitimate
as insertion order; this function still has exactly the elements of its
input, without duplicates. -/
def setOrderRev : List String → List String := fun xs => xs.dedup.reverse

/-- Discovery environment in which tier 1 is unavailable (kubectl not on
PATH: `which` exits 1) and tier 2's `pcs status resources` yields one line
from which exactly `fs-a` and `fs-b` are parsed, in that order. -/
def envDlmAB : DiscoverEnv :=
  { discoveryEnabled := true
    whichRaises := false
    whichRc := 1
    kubectlRun := RunOutcome.raised
    kubectlJson := none
    dlmPcs := some (0, "gfs2:fs-a gfs2-fs-b")
    pcmkPcs := none }

/-- Counterexample to C7 as stated: tier 2 parses exactly `fs-a` then
`fs-b` from its matched line, but the code returns
`list(set(gfs2_filesystems))` (`fence_gfs2_recorder.py` line 334), whose
iteration order is implementation-defined (string hashes are seed
randomized); under the legitimate reversed set order the discover call
returns `["fs-b", "fs-a"]`, not `["fs-a", "fs-b"]` — the elements are
right but the claimed order is not guaranteed. -/
theorem discover_order_not_guaranteed :
    dlmParse "gfs2:fs-a gfs2-fs-b" = ["fs-a", "fs-b"] ∧
      setOrderRev ["fs-a", "fs-b"] = ["fs-b", "fs-a"] ∧
      discover_gfs2_filesystems setOrderRev envDlmAB = Except.ok ["fs-b", "fs-a"] ∧
      (["fs-b", "fs-a"] : List String) ≠ ["fs-a", "fs-b"] := by
  refine ⟨by decide, by decide, rfl, by decide⟩

/-- C7 (amended): with tier 1 unavailable or yielding nothing and tier 2's
`pcs status resources` output parsing to exactly the names `fs-a` and
`fs-b`, `discover_gfs2_filesystems` returns (without raising) a non-empty
list whose elements are exactly `{fs-a, fs-b}` — first non-empty tier
wins, never an empty list — but the order of the two elements is whatever
the `list(set(...))` iteration order (`setOrder`) yields. -/
theorem discover_fallback_ordering (setOrder : List String → List String)
    (env : DiscoverEnv) (out : String)
    (hmem : ∀ xs a, a ∈ setOrder xs ↔ a ∈ xs)
    (hen : env.discoveryEnabled = true)
    (htier1 : try_kubectl_discovery env = Except.ok none ∨
      try_kubectl_discovery env = Except.ok (some []))
    (hdlm : env.dlmPcs = some (0, out))
    (hstrip : pyStrip out.data ≠ [])
    (hparse : dlmParse out = ["fs-a", "fs-b"]) :
    ∃ l, discover_gfs2_filesystems setOrder env = Except.ok l ∧ l ≠ [] ∧
      ∀ a, a ∈ l ↔ (a = "fs-a" ∨ a = "fs-b") := by
  have hdl : try_dlm_discovery setOrder env.dlmPcs =
      some (setOrder ["fs-a", "fs-b"]) := by
    rw [hdlm]
    show (if (0 : Int) = 0 ∧ pyStrip out.data ≠ [] then
        if dlmParse out ≠ [] then some (setOrder (dlmParse out)) else none
      else none) = some (setOrder ["fs-a", "fs-b"])
    rw [if_pos ⟨rfl, hstrip⟩, hparse, if_pos (by decide)]
  have hmemA : "fs-a" ∈ setOrder ["fs-a", "fs-b"] := (hmem _ _).2 (by simp)
  have hne : setOrder ["fs-a", "fs-b"] ≠ [] := List.ne_nil_of_mem hmemA
  refine ⟨setOrder ["fs-a", "fs-b"], ?_, hne, ?_⟩
  · unfold discover_gfs2_filesystems
    rw [hen]
    have htail : ∀ kres : Option (List String), kres.getD [] = [] →
        discoverTail setOrder kres env.dlmPcs env.pcmkPcs =
          setOrder ["fs-a", "fs-b"] := by
      intro kres hke
      unfold discoverTail
      rw [hke, if_neg (by simp), hdl, if_pos]
      · rfl
      · simpa using hne
    rcases htier1 with h | h <;> rw [h] <;> simp only [] <;>
      rw [htail _ (by rfl)] <;> rfl
  · intro a
    rw [hmem]
    simp

/-- Witness for C7 (amended): the concrete environment of the
counterexample, with the identity set order. -/
theorem discover_fallback_ordering_witness :
    ∃ l, discover_gfs2_filesystems (fun xs => xs) envDlmAB = Except.ok l ∧ l ≠ [] ∧
      "fs-a" ∈ l ∧ "fs-b" ∈ l := by
  obtain ⟨l, h1, h2, h3⟩ := discover_fallback_ordering (fun xs => xs) envDlmAB
    "gfs2:fs-a gfs2-fs-b" (fun xs a => Iff.rfl) rfl (Or.inl rfl) rfl
    (by decide) (by decide)
  exact ⟨l, h1, h2, (h3 "fs-a").2 (Or.inl rfl), (h3 "fs-b").2 (Or.inr rfl)⟩

/-- Discovery environment in which the `which` availability probe itself
raises (`subprocess.run` raising, e.g. `FileNotFoundError` when no `which`
binary exists, at the unguarded line 260). -/
def envWhichRaises : DiscoverEnv :=
  { discoveryEnabled := true
    whichRaises := true
    whichRc := 0
    kubectlRun := RunOutcome.raised
    kubectlJson := none
    dlmPcs := none
    pcmkPcs := none }

/-- Counterexample to C8 as stated: `discover_gfs2_filesystems` does not
catch anything itself, and the `subprocess.run(["which", KUBECTL_CMD])`
probe at `fence_gfs2_recorder.py` line 260 is outside every `try` block,
so when that call raises the exception propagates to discover's caller
instead of degrading to the next tier. -/
theorem discover_raises_when_probe_raises :
    discover_gfs2_filesystems setOrderRev envWhichRaises =
        Except.error "FileNotFoundError: which" ∧
      (discover_gfs2_filesystems setOrderRev envWhichRaises).isOk = false :=
  ⟨rfl, rfl⟩

theorem try_kubectl_no_raise (env : DiscoverEnv) (h : env.whichRaises = false) :
    try_kubectl_discovery env = Except.ok
      (if env.whichRc ≠ 0 then none
        else kubectlGuarded env.kubectlRun env.kubectlJson) := by
  unfold try_kubectl_discovery
  rw [h, if_neg Bool.false_ne_true]
  by_cases hrc : env.whichRc ≠ 0
  · rw [if_pos hrc, if_pos hrc]
  · rw [if_neg hrc, if_neg hrc]

theorem discoverTail_ne_nil (setOrder : List String → List String)
    (kres : Option (List String)) (dlmPcs pcmkPcs : Option (Int × String)) :
    discoverTail setOrder kres dlmPcs pcmkPcs ≠ [] := by
  unfold discoverTail
  split_ifs with h1 h2 h3
  · exact h1
  · exact h2
  · exact h3
  · decide

/-- C8 (amended): provided the *availability probe* for the discovery tool
does not itself raise (it is the one subprocess call outside any `try`
block), `discover_gfs2_filesystems` never raises to its caller and never
returns the empty list; with discovery turned off it returns the sentinel
`["discovery-disabled"]`, and when every tier ran but yielded nothing it
returns the sentinel `["none-detected"]` — and the two sentinels and the
empty list are pairwise distinct, so 'turned off', 'found nothing' and
'no filesystems' are never conflated. -/
theorem discover_no_raise_no_empty (setOrder : List String → List String)
    (env : DiscoverEnv) (hwhich : env.whichRaises = false) :
    (∃ l, discover_gfs2_filesystems setOrder env = Except.ok l ∧ l ≠ []) ∧
      (env.discoveryEnabled = false →
        discover_gfs2_filesystems setOrder env = Except.ok ["discovery-disabled"]) ∧
      (∀ kres, env.discoveryEnabled = true →
        try_kubectl_discovery env = Except.ok kres → kres.getD [] = [] →
        (try_dlm_discovery setOrder env.dlmPcs).getD [] = [] →
        (try_pacemaker_discovery setOrder env.pcmkPcs).getD [] = [] →
        discover_gfs2_filesystems setOrder env = Except.ok ["none-detected"]) ∧
      (("discovery-disabled" : String) ≠ "none-detected" ∧
        (["discovery-disabled"] : List String) ≠ [] ∧
        (["none-detected"] : List String) ≠ []) := by
  refine ⟨?_, ?_, ?_, by decide, by decide, by decide⟩
  · cases henb : env.discoveryEnabled with
    | false =>
      refine ⟨["discovery-disabled"], ?_, by decide⟩
      unfold discover_gfs2_filesystems
      rw [henb]
      rfl
    | true =>
      have hk := try_kubectl_no_raise env hwhich
      refine ⟨discoverTail setOrder
        (if env.whichRc ≠ 0 then none
          else kubectlGuarded env.kubectlRun env.kubectlJson) env.dlmPcs env.pcmkPcs,
        ?_, discoverTail_ne_nil _ _ _ _⟩
      unfold discover_gfs2_filesystems
      rw [henb, hk]
      rfl
  · intro hd
    unfold discover_gfs2_filesystems
    rw [hd]
    rfl
  · intro kres henb hk hke hd hp
    unfold discover_gfs2_filesystems
    rw [henb, hk]
    show Except.ok (discoverTail setOrder kres env.dlmPcs env.pcmkPcs) = _
    unfold discoverTail
    rw [hke, if_neg (by simp), hd, if_neg (by simp), hp, if_neg (by simp)]

/-- Witness for C8 (amended): concrete environments with a healthy probe —
discovery disabled yields the disabled sentinel, and an enabled run yields
a non-empty list without raising. -/
theorem discover_no_raise_no_empty_witness :
    discover_gfs2_filesystems setOrderRev
        { envDlmAB with discoveryEnabled := false } = Except.ok ["discovery-disabled"] ∧
      ∃ l, discover_gfs2_filesystems setOrderRev envDlmAB = Except.ok l ∧ l ≠ [] := by
  constructor
  · exact (discover_no_raise_no_empty setOrderRev
      { envDlmAB with discoveryEnabled := false } rfl).2.1 rfl
  · exact (discover_no_raise_no_empty setOrderRev envDlmAB rfl).1
